import Mathlib

/-!
Verification of the saastify_edge transformation DSL engine and batch processor.

This file gives a shallow embedding of the Python source in
`python-sdk/saastify_edge/transformations/engine.py`,
`python-sdk/saastify_edge/transformations/operations.py` and
`python-sdk/saastify_edge/import_pipeline/batch_processor.py`,
and proves the specification claims about it.

Modelling conventions:
- Python values are modelled by the inductive `Value` (scalars, lists, dicts).
  Python floats are modelled by exact rationals carrying the value of the
  decimal literal they were parsed from; no claim in scope depends on IEEE-754
  rounding of float arithmetic.
- Python strings are Lean `String`s; the Python `str` methods used by the
  engine (`strip`, `lstrip`, `rstrip`, `split`, `replace`, `startswith`,
  `lower`, `upper`, slicing) are re-implemented below over `List Char` by
  structural recursion, with ASCII case mapping and ASCII whitespace/digits
  (the engine and the claims only exercise ASCII data).
- Raised exceptions become `Except.error` (when they propagate to the caller)
  or the `StepOutcome.fault` constructor (when raised inside an operation and
  observed by the pipeline executor). The dedicated `RejectRow` signal is the
  `StepOutcome.rejectRow` constructor.
- CPython's in-place list repetition (`*=`), used by the broadcasting engine,
  is modelled by explicit state passing: `bulk_apply_pipe_rules_st` returns,
  besides the results, the post-call contents of the caller's `values_list`
  and `rule_strings` objects.
-/

set_option maxHeartbeats 1000000

namespace EdgeSDK

/-! ## Python string primitives (ASCII model) -/

/-- ASCII whitespace, the character class stripped by Python `str.strip()`. -/
def isPySpace (c : Char) : Bool :=
  c = ' ' || c = '\t' || c = '\n' || c = '\r' || c = '\x0b' || c = '\x0c'

def isAsciiDigit (c : Char) : Bool := '0' ≤ c && c ≤ '9'

def pyStripL (l : List Char) : List Char := l.dropWhile (fun c => isPySpace c)

def pyStripR (l : List Char) : List Char :=
  (l.reverse.dropWhile (fun c => isPySpace c)).reverse

def pyStripBoth (l : List Char) : List Char := pyStripR (pyStripL l)

/-- Python `s.strip()` (no argument: strip whitespace from both ends). -/
def pyStripStr (s : String) : String := ⟨pyStripBoth s.data⟩

/-- Python `s.lstrip()`. -/
def pyLStrip (s : String) : String := ⟨pyStripL s.data⟩

/-- Python `s.strip(chars)`: strip any of the given characters from both ends. -/
def pyStripChars (cs : String) (s : String) : String :=
  ⟨((s.data.dropWhile (fun c => cs.data.contains c)).reverse.dropWhile
      (fun c => cs.data.contains c)).reverse⟩

/-- Python `s.rstrip(c)` for a single character: drop every trailing `c`. -/
def pyRStripChar (c : Char) (l : List Char) : List Char :=
  (l.reverse.dropWhile (fun d => d = c)).reverse

/-- Python `s.lower()` (ASCII case mapping). -/
def pyLowerStr (s : String) : String := ⟨s.data.map Char.toLower⟩

/-- Python `s.upper()` (ASCII case mapping). -/
def pyUpperStr (s : String) : String := ⟨s.data.map Char.toUpper⟩

/-- Python `s.startswith(pre)`. -/
def pyStartsWith (s pre : String) : Bool := pre.data.isPrefixOf s.data

/-- Python slicing `s[n:]`. -/
def pyDrop (s : String) (n : Nat) : String := ⟨s.data.drop n⟩

/-- Split a char list at the first occurrence of `sep`
(Python `s.split(sep, 1)` for a one-character separator, when it occurs). -/
def splitFirstChar (sep : Char) : List Char → Option (List Char × List Char)
  | [] => Option.none
  | c :: cs =>
      if c = sep then Option.some ([], cs)
      else (splitFirstChar sep cs).map (fun p => (c :: p.1, p.2))

/-- Split on every occurrence of a one-character separator
(Python `s.split(sep)`); `acc` holds the current field reversed. -/
def splitAllCharAux (sep : Char) : List Char → List Char → List (List Char)
  | acc, [] => [acc.reverse]
  | acc, c :: cs =>
      if c = sep then acc.reverse :: splitAllCharAux sep [] cs
      else splitAllCharAux sep (c :: acc) cs

def splitAllChar (sep : Char) (l : List Char) : List (List Char) :=
  splitAllCharAux sep [] l

/-- Split at the first occurrence of a multi-character separator
(Python `s.split(sep, 1)`): `Option.none` when `sep` does not occur. -/
def splitFirstSeq (sep : List Char) : List Char → Option (List Char × List Char)
  | [] => Option.none
  | c :: cs =>
      if sep.isPrefixOf (c :: cs) then Option.some ([], (c :: cs).drop sep.length)
      else (splitFirstSeq sep cs).map (fun p => (c :: p.1, p.2))

/-- Python `s.replace(pat, rep)` for non-empty `pat`: left-to-right,
non-overlapping. Fuel-indexed to stay structural; a fuel of `s.length`
always suffices since every step consumes at least one character. -/
def pyReplaceFuel (pat rep : List Char) : Nat → List Char → List Char
  | _, [] => []
  | 0, l => l
  | fuel + 1, c :: cs =>
      if pat.isPrefixOf (c :: cs) then
        rep ++ pyReplaceFuel pat rep fuel (cs.drop (pat.length - 1))
      else c :: pyReplaceFuel pat rep fuel cs

/-- Python `s.replace("", rep)` inserts `rep` before every character and at
the end. -/
def pyInterleave (rep : List Char) : List Char → List Char
  | [] => rep
  | c :: cs => rep ++ c :: pyInterleave rep cs

/-- Python `s.replace(pat, rep)`. -/
def pyReplaceStr (s pat rep : String) : String :=
  if pat.data.isEmpty then ⟨pyInterleave rep.data s.data⟩
  else ⟨pyReplaceFuel pat.data rep.data s.data.length s.data⟩

/-- Python `s.split(sep)` for a non-empty multi-character separator.
Fuel-indexed to stay structural; fuel `s.length` always suffices. -/
def pySplitFuel (sep : List Char) : Nat → List Char → List Char → List (List Char)
  | _, acc, [] => [acc.reverse]
  | 0, acc, rest => [acc.reverse ++ rest]
  | fuel + 1, acc, c :: cs =>
      if sep.isPrefixOf (c :: cs) then
        acc.reverse :: pySplitFuel sep fuel [] (cs.drop (sep.length - 1))
      else pySplitFuel sep fuel (c :: acc) cs

def pySplitStr (s sep : String) : List String :=
  (pySplitFuel sep.data s.data.length [] s.data).map (fun l => ⟨l⟩)

/-- Python list repetition `l * n` (n concatenated copies). -/
def pyListMul (l : List α) : Nat → List α
  | 0 => []
  | n + 1 => l ++ pyListMul l n

/-! ## Python numbers -/

def digitsVal (l : List Char) : Nat :=
  l.foldl (fun acc c => acc * 10 + (c.toNat - '0'.toNat)) 0

/-- Parse a non-empty all-ASCII-digits run. -/
def parseDigits (l : List Char) : Option Nat :=
  if !l.isEmpty && l.all (fun c => isAsciiDigit c) then Option.some (digitsVal l)
  else Option.none

/-- Signed integer literal: optional sign followed by digits. -/
def parseSignedDigits : List Char → Option Int
  | '-' :: rest => (parseDigits rest).map (fun n => -(n : Int))
  | '+' :: rest => (parseDigits rest).map (fun n => (n : Int))
  | l => (parseDigits l).map (fun n => (n : Int))

/-- Python `int(s)` on a string: surrounding whitespace allowed, then an
optionally signed digit run; anything else raises `ValueError` (`none`).
(Underscore digit grouping is not modelled; no claim exercises it.) -/
def pyIntOfString (s : String) : Option Int := parseSignedDigits (pyStripBoth s.data)

/-- Unsigned decimal literal `d* [. d*]` with at least one digit; exact value
(built with `mkRat` over natural-number arithmetic). -/
def parseUnsignedFloat (l : List Char) : Option Rat :=
  match splitFirstChar '.' l with
  | Option.none => (parseDigits l).map (fun n => mkRat n 1)
  | Option.some (ip, fp) =>
      if ip.all (fun c => isAsciiDigit c) && fp.all (fun c => isAsciiDigit c)
          && !(ip.isEmpty && fp.isEmpty) then
        Option.some (mkRat (digitsVal ip * 10 ^ fp.length + digitsVal fp) (10 ^ fp.length))
      else Option.none

/-- Python `float(s)` on a string, restricted to plain decimal literals
(sign, digits, one optional dot). Exponent/`inf`/`nan` forms are not
modelled (treated as failure); no claim exercises them. -/
def pyFloatParse (s : String) : Option Rat :=
  match pyStripBoth s.data with
  | '-' :: rest => (parseUnsignedFloat rest).map (fun q => -q)
  | '+' :: rest => parseUnsignedFloat rest
  | l => parseUnsignedFloat l

/-! ## Values -/

/-- A Python value as handled by the engine: scalars, lists, dicts.
Floats carry an exact rational (see the header note). -/
inductive Value where
  | none  : Value
  | bool  : Bool → Value
  | int   : Int → Value
  | float : Rat → Value
  | str   : String → Value
  | list  : List Value → Value
  | dict  : List (String × Value) → Value

/-- Python truthiness of a value. -/
def pyTruthy : Value → Bool
  | Value.none => false
  | Value.bool b => b
  | Value.int n => n ≠ 0
  | Value.float q => q ≠ 0
  | Value.str s => !s.data.isEmpty
  | Value.list l => !l.isEmpty
  | Value.dict m => !m.isEmpty

/-- Python `float(v)`: `none` models a raised `ValueError`/`TypeError`. -/
def pyFloat : Value → Option Rat
  | Value.int n => Option.some (n : Rat)
  | Value.float q => Option.some q
  | Value.bool b => Option.some (if b then 1 else 0)
  | Value.str s => pyFloatParse s
  | _ => Option.none

/-- Python `int(v)`: truncation toward zero on floats; `none` models a raised
`ValueError`/`TypeError`. -/
def pyInt : Value → Option Int
  | Value.int n => Option.some n
  | Value.float q => Option.some (q.num / (q.den : Int))
  | Value.bool b => Option.some (if b then 1 else 0)
  | Value.str s => pyIntOfString s
  | _ => Option.none

/-- Python `dict.get(k)` on the assoc-list model of a dict. -/
def dictGet (m : List (String × Value)) (k : String) : Option Value :=
  (m.find? (fun p => p.1 == k)).map (fun p => p.2)

/-- Python `m[k] = v` on a dict: overwrite in place, else append. -/
def dictInsert (m : List (String × Value)) (k : String) (v : Value) :
    List (String × Value) :=
  if m.any (fun p => p.1 == k) then m.map (fun p => if p.1 == k then (k, v) else p)
  else m ++ [(k, v)]

/-! ## Operations (operations.py)

An operation receives the accumulated value and the step's keyword
arguments.  Its outcome is a new value, the `RejectRow` signal, or any
other raised exception (`fault`) — including `TypeError` from binding a
missing/ill-typed required keyword argument, which in Python is raised by
the call itself and lands in the executor's generic `except`. -/

inductive StepOutcome where
  | ok        : Value → StepOutcome
  | rejectRow : StepOutcome
  | fault     : String → StepOutcome

def Params := List (String × Value)

def Op := Value → Params → StepOutcome

def getParam (ps : Params) (k : String) : Option Value :=
  (List.find? (fun p => p.1 == k) ps).map (fun p => p.2)

/-- `uppercase`: `v.upper() if isinstance(v, str) else v`. -/
def uppercase : Op := fun v _ =>
  match v with
  | Value.str s => StepOutcome.ok (Value.str (pyUpperStr s))
  | _ => StepOutcome.ok v

/-- `lowercase`: `v.lower() if isinstance(v, str) else v`. -/
def lowercase : Op := fun v _ =>
  match v with
  | Value.str s => StepOutcome.ok (Value.str (pyLowerStr s))
  | _ => StepOutcome.ok v

/-- `strip`: `v.strip(chars) if isinstance(v, str) else v`; `chars` optional
(default `None` = whitespace). -/
def strip : Op := fun v ps =>
  match v with
  | Value.str s =>
      match getParam ps "chars" with
      | Option.none => StepOutcome.ok (Value.str (pyStripStr s))
      | Option.some Value.none => StepOutcome.ok (Value.str (pyStripStr s))
      | Option.some (Value.str cs) => StepOutcome.ok (Value.str (pyStripChars cs s))
      | Option.some _ => StepOutcome.fault "TypeError: strip arg must be str or None"
  | _ => StepOutcome.ok v

/-- `capitalize`: first character upper-cased, the rest lower-cased. -/
def capitalize : Op := fun v _ =>
  match v with
  | Value.str s =>
      match s.data with
      | [] => StepOutcome.ok (Value.str "")
      | c :: cs => StepOutcome.ok (Value.str ⟨Char.toUpper c :: cs.map Char.toLower⟩)
  | _ => StepOutcome.ok v

/-- `split_comma`: split on commas and strip each element. -/
def split_comma : Op := fun v _ =>
  match v with
  | Value.str s =>
      StepOutcome.ok (Value.list ((splitAllChar ',' s.data).map
        (fun l => Value.str ⟨pyStripBoth l⟩)))
  | _ => StepOutcome.ok v

/-- `split`: `v.split(delimiter) if isinstance(v, str) else v`; `delimiter`
is a required argument, and Python raises `ValueError` on an empty one. -/
def split : Op := fun v ps =>
  match getParam ps "delimiter" with
  | Option.none => StepOutcome.fault "TypeError: missing delimiter"
  | Option.some d =>
      match v with
      | Value.str s =>
          match d with
          | Value.str ds =>
              if ds.data.isEmpty then StepOutcome.fault "ValueError: empty separator"
              else StepOutcome.ok (Value.list ((pySplitStr s ds).map Value.str))
          | _ => StepOutcome.fault "TypeError: separator must be str"
      | _ => StepOutcome.ok v

/-- `replace`: `v.replace(old, new) if isinstance(v, str) else v`;
`old` and `new` are required arguments. -/
def replace : Op := fun v ps =>
  match getParam ps "old", getParam ps "new" with
  | Option.none, _ => StepOutcome.fault "TypeError: missing old"
  | _, Option.none => StepOutcome.fault "TypeError: missing new"
  | Option.some o, Option.some n =>
      match v with
      | Value.str s =>
          match o, n with
          | Value.str os, Value.str ns =>
              StepOutcome.ok (Value.str (pyReplaceStr s os ns))
          | _, _ => StepOutcome.fault "TypeError: replace args must be str"
      | _ => StepOutcome.ok v

/-- `clean_numeric_value`: drop every character that is not a digit or a dot,
then `float(...)`, returning the original value when that parse fails. -/
def clean_numeric_value : Op := fun v _ =>
  match v with
  | Value.str s =>
      match pyFloatParse ⟨s.data.filter (fun c => isAsciiDigit c || c = '.')⟩ with
      | Option.some q => StepOutcome.ok (Value.float q)
      | Option.none => StepOutcome.ok (Value.str s)
  | _ => StepOutcome.ok v

/-- `addition`: `float(v) + float(amount)`, original value on coercion failure. -/
def addition : Op := fun v ps =>
  match getParam ps "amount" with
  | Option.none => StepOutcome.fault "TypeError: missing amount"
  | Option.some a =>
      match pyFloat v, pyFloat a with
      | Option.some x, Option.some y => StepOutcome.ok (Value.float (x + y))
      | _, _ => StepOutcome.ok v

/-- `subtraction`: `float(v) - float(amount)`. -/
def subtraction : Op := fun v ps =>
  match getParam ps "amount" with
  | Option.none => StepOutcome.fault "TypeError: missing amount"
  | Option.some a =>
      match pyFloat v, pyFloat a with
      | Option.some x, Option.some y => StepOutcome.ok (Value.float (x - y))
      | _, _ => StepOutcome.ok v

/-- `multiplication`: `float(v) * float(factor)`. -/
def multiplication : Op := fun v ps =>
  match getParam ps "factor" with
  | Option.none => StepOutcome.fault "TypeError: missing factor"
  | Option.some f =>
      match pyFloat v, pyFloat f with
      | Option.some x, Option.some y => StepOutcome.ok (Value.float (x * y))
      | _, _ => StepOutcome.ok v

/-- `division`: divisor coerced first; zero divisor yields `None`;
coercion failure returns the original value. -/
def division : Op := fun v ps =>
  match getParam ps "divisor" with
  | Option.none => StepOutcome.fault "TypeError: missing divisor"
  | Option.some d =>
      match pyFloat d with
      | Option.none => StepOutcome.ok v
      | Option.some q =>
          if q = 0 then StepOutcome.ok Value.none
          else
            match pyFloat v with
            | Option.some x => StepOutcome.ok (Value.float (x / q))
            | Option.none => StepOutcome.ok v

/-- `percentage`: `float(v) * float(factor)` with `factor` defaulting to 100. -/
def percentage : Op := fun v ps =>
  match pyFloat v, pyFloat ((getParam ps "factor").getD (Value.int 100)) with
  | Option.some x, Option.some y => StepOutcome.ok (Value.float (x * y))
  | _, _ => StepOutcome.ok v

/-- `adjust_negative_to_zero`: `max(0, float(v))`; Python `max` returns its
first argument (the `int` 0) when the two compare equal. -/
def adjust_negative_to_zero : Op := fun v _ =>
  match pyFloat v with
  | Option.some q =>
      if q ≤ 0 then StepOutcome.ok (Value.int 0) else StepOutcome.ok (Value.float q)
  | Option.none => StepOutcome.ok v

/-- `set` (source function `set_value`): force the value to a constant,
ignoring the input. -/
def set_value : Op := fun _ ps =>
  match getParam ps "value" with
  | Option.some x => StepOutcome.ok x
  | Option.none => StepOutcome.fault "TypeError: missing value"

/-- `set_number`: `int(value)`, ignoring the input; `int()` on a
non-integer-literal string raises `ValueError` (a fault). -/
def set_number : Op := fun _ ps =>
  match getParam ps "value" with
  | Option.none => StepOutcome.fault "TypeError: missing value"
  | Option.some x =>
      match pyInt x with
      | Option.some n => StepOutcome.ok (Value.int n)
      | Option.none => StepOutcome.fault "ValueError: invalid literal for int"

/-- `copy`: pass through unchanged. -/
def copy : Op := fun v _ => StepOutcome.ok v

/-- `rejects`: unconditionally raise the `RejectRow` signal. -/
def rejects : Op := fun _ _ => StepOutcome.rejectRow

/-- `vlookup_map`: case-insensitive lookup of a string input; unmatched or
non-string input returned unchanged; falsy (`None`/empty) mapping skipped. -/
def vlookup_map : Op := fun v ps =>
  match v with
  | Value.str s =>
      match getParam ps "mapping" with
      | Option.none => StepOutcome.ok (Value.str s)
      | Option.some mp =>
          if pyTruthy mp then
            match mp with
            | Value.dict m =>
                StepOutcome.ok ((dictGet m (pyLowerStr s)).getD (Value.str s))
            | _ => StepOutcome.fault "AttributeError: object has no attribute get"
          else StepOutcome.ok (Value.str s)
  | _ => StepOutcome.ok v

/-- The transformation registry (engine.py `TRANSFORMS`), restricted to the
core operations modelled above.  The regex-, date-, `str()`-formatting- and
`advanced_operations`-based entries of the source registry are outside this
model (no claim executes them); claims that quantify over the whole registry
are stated for an arbitrary registry function and instantiated with this one. -/
def TRANSFORMS : String → Option Op
  | "uppercase" => Option.some uppercase
  | "lowercase" => Option.some lowercase
  | "strip" => Option.some strip
  | "capitalize" => Option.some capitalize
  | "split_comma" => Option.some split_comma
  | "split" => Option.some split
  | "replace" => Option.some replace
  | "clean_numeric_value" => Option.some clean_numeric_value
  | "addition" => Option.some addition
  | "subtraction" => Option.some subtraction
  | "multiplication" => Option.some multiplication
  | "division" => Option.some division
  | "percentage" => Option.some percentage
  | "adjust_negative_to_zero" => Option.some adjust_negative_to_zero
  | "set" => Option.some set_value
  | "set_number" => Option.some set_number
  | "copy" => Option.some copy
  | "rejects" => Option.some rejects
  | "vlookup_map" => Option.some vlookup_map
  | _ => Option.none

/-! ## DSL parser (engine.py `_parse_dsl_rule`) -/

/-- A transformation step: operation name plus keyword arguments.
A step produced without a `params` key (the bare `rejects` token) is
modelled by an empty argument list, matching `step.get("params", {})`. -/
structure Step where
  name : String
  params : Params

/-- Python `token.split('|', 1)[1]`: everything after the first pipe
(the call sites guard on a prefix that contains a pipe). -/
def afterFirstPipe (token : String) : String :=
  match splitFirstChar '|' token.data with
  | Option.some (_, rest) => ⟨rest⟩
  | Option.none => ""

/-- The last two steps of `split` delimiter resolution: strip surrounding
whitespace unless the delimiter is exactly a single space, and reject an
empty result. -/
def finalizeDelim (d : String) : Except String String :=
  let d2 := if d = " " then d else pyStripStr d
  if d2 = "" then Except.error "split requires non-empty delimiter"
  else Except.ok d2

/-- Delimiter resolution for a `split|<raw>` token (engine.py lines 257-273). -/
def parseSplitArg (raw : String) : Except String String :=
  let delim :=
    if raw = "||" ∨ raw = "\\|" then "|"
    else if pyStartsWith raw "|||" then
      (if pyDrop raw 3 = "" then "|" else pyDrop raw 3)
    else if pyStartsWith raw "||" then
      (let tail := pyDrop raw 2
       if tail = "" ∨ tail = " " then " " else tail)
    else if pyStartsWith raw "\\|" then "|" ++ pyDrop raw 2
    else raw
  finalizeDelim delim

/-- The value of `^-?\d+\.\d+$`-shaped strings (the regex used by the
vlookup value coercion), as an exact rational; `none` when the string does
not match. -/
def decimalFloatCore (l : List Char) : Option Rat :=
  match splitFirstChar '.' l with
  | Option.none => Option.none
  | Option.some (ip, fp) =>
      if !ip.isEmpty && ip.all (fun c => isAsciiDigit c)
          && !fp.isEmpty && fp.all (fun c => isAsciiDigit c) then
        Option.some (mkRat (digitsVal ip * 10 ^ fp.length + digitsVal fp) (10 ^ fp.length))
      else Option.none

def decimalFloatShape (s : String) : Option Rat :=
  match s.data with
  | '-' :: rest => (decimalFloatCore rest).map (fun q => -q)
  | l => decimalFloatCore l

/-- Python `s.isdigit()` (ASCII model). -/
def pyIsDigit (s : String) : Bool := !s.data.isEmpty && s.data.all (fun c => isAsciiDigit c)

/-- Type coercion for vlookup values (engine.py lines 315-324); the input is
the already-stripped value string. -/
def coerceVlookupValue (v : String) : Value :=
  if pyLowerStr v = "true" then Value.bool true
  else if pyLowerStr v = "false" then Value.bool false
  else
    match decimalFloatShape v with
    | Option.some q => Value.float q
    | Option.none =>
        if pyIsDigit v then Value.int (digitsVal v.data) else Value.str v

def parseVlookupPairs : List (List Char) → List (String × Value) →
    Except String (List (String × Value))
  | [], acc => Except.ok acc
  | pair :: more, acc =>
      match splitFirstChar ':' pair with
      | Option.none =>
          Except.error "not enough values to unpack (expected 2, got 1)"
      | Option.some (k, v0) =>
          parseVlookupPairs more
            (dictInsert acc (pyLowerStr ⟨pyStripBoth k⟩)
              (coerceVlookupValue ⟨pyStripBoth v0⟩))

/-- Mapping construction for a `vlookup|<rest>` token: trailing pipes
trimmed, comma-separated pairs, each split on its first colon. -/
def parseVlookupArg (rest : String) : Except String (List (String × Value)) :=
  parseVlookupPairs (splitAllChar ',' (pyRStripChar '|' rest.data)) []

/-- Dispatch of one (left-trimmed, non-empty) token: fixed prefix-matching
priority order from engine.py lines 254-364. -/
def parseToken (token : String) : Except String Step :=
  if pyStartsWith token "split|" then
    match parseSplitArg (pyDrop token 6) with
    | Except.error e => Except.error e
    | Except.ok d => Except.ok ⟨"split", [("delimiter", Value.str d)]⟩
  else if pyStartsWith token "join|" then
    Except.ok ⟨"join", [("delimiter", Value.str (pyDrop token 5))]⟩
  else if pyStartsWith token "prefix|" then
    Except.ok ⟨"prefix", [("prefix_str", Value.str (pyDrop token 7))]⟩
  else if pyStartsWith token "suffix|" then
    Except.ok ⟨"suffix", [("suffix_str", Value.str (pyDrop token 7))]⟩
  else if pyStartsWith token "replace_regex|" then
    match splitFirstSeq ['|', '|'] (pyDrop token 14).data with
    | Option.some (pat, rep) =>
        Except.ok ⟨"replace_regex",
          [("pattern", Value.str ⟨pat⟩), ("repl", Value.str ⟨rep⟩)]⟩
    | Option.none =>
        Except.ok ⟨"replace_regex",
          [("pattern", Value.str (pyDrop token 14)), ("repl", Value.str "")]⟩
  else if pyStartsWith token "replace|" then
    match splitFirstChar '|' (pyDrop token 8).data with
    | Option.none => Except.error ("replace requires two parameters: " ++ token)
    | Option.some (o, n) =>
        Except.ok ⟨"replace", [("old", Value.str ⟨o⟩), ("new", Value.str ⟨n⟩)]⟩
  else if pyStartsWith token "vlookup|" then
    match parseVlookupArg (pyDrop token 8) with
    | Except.error e => Except.error e
    | Except.ok m => Except.ok ⟨"vlookup_map", [("mapping", Value.dict m)]⟩
  else if pyStartsWith token "addition|" then
    Except.ok ⟨"addition", [("amount", Value.str (afterFirstPipe token))]⟩
  else if pyStartsWith token "subtraction|" then
    Except.ok ⟨"subtraction", [("amount", Value.str (afterFirstPipe token))]⟩
  else if pyStartsWith token "multiplication|" then
    Except.ok ⟨"multiplication", [("factor", Value.str (afterFirstPipe token))]⟩
  else if pyStartsWith token "division|" then
    Except.ok ⟨"division", [("divisor", Value.str (afterFirstPipe token))]⟩
  else if pyStartsWith token "percentage|" then
    Except.ok ⟨"percentage", [("factor", Value.str (afterFirstPipe token))]⟩
  else if pyStartsWith token "strip|" then
    Except.ok ⟨"strip", [("chars", Value.str (afterFirstPipe token))]⟩
  else if pyStartsWith token "set|" then
    Except.ok ⟨"set", [("value", Value.str (afterFirstPipe token))]⟩
  else if pyStartsWith token "set_number|" then
    Except.ok ⟨"set_number", [("value", Value.str (afterFirstPipe token))]⟩
  else if pyStartsWith token "zero_padding|" then
    Except.ok ⟨"zero_padding", [("value", Value.str (afterFirstPipe token))]⟩
  else if token = "rejects" then
    Except.ok ⟨"rejects", []⟩
  else
    Except.ok ⟨token, []⟩

/-- Tokenization: `rule.replace(' + ', '|;|').split('|;|')`. -/
def tokensOf (rule : String) : List String :=
  pySplitStr (pyReplaceStr rule " + " "|;|") "|;|"

/-- Per-token loop: left-trim, skip empties, dispatch; the first raised
parse error aborts the whole parse. -/
def parseTokens : List String → Except String (List Step)
  | [] => Except.ok []
  | t :: ts =>
      let token := pyLStrip t
      if token = "" then parseTokens ts
      else
        match parseToken token with
        | Except.error e => Except.error e
        | Except.ok st =>
            match parseTokens ts with
            | Except.error e => Except.error e
            | Except.ok rest => Except.ok (st :: rest)

/-- `_parse_dsl_rule`: compile one rule string into a step list. -/
def parse_dsl_rule (rule : String) : Except String (List Step) :=
  parseTokens (tokensOf rule)

/-! ## Pipeline executor (engine.py `apply_transformations`) -/

/-- Execute a step list against one value, with an arbitrary registry.
An unknown operation name raises `ValueError` to the caller
(`Except.error`); the `RejectRow` signal stops the chain and discards the
value (`(None, True)`); any other per-step fault leaves the accumulated
value unchanged and the chain continues. -/
def apply_transformations (reg : String → Option Op) (val : Value) :
    List Step → Except String (Value × Bool)
  | [] => Except.ok (val, false)
  | s :: rest =>
      match reg s.name with
      | Option.none => Except.error ("Unknown transformation: " ++ s.name)
      | Option.some f =>
          match f val s.params with
          | StepOutcome.ok w => apply_transformations reg w rest
          | StepOutcome.rejectRow => Except.ok (Value.none, true)
          | StepOutcome.fault _ => apply_transformations reg val rest

/-- The value a chain produces when every fault is treated as a no-op:
the fold of the non-faulting steps, in order. -/
def failSoftFold (reg : String → Option Op) (v : Value) (steps : List Step) : Value :=
  steps.foldl
    (fun acc s =>
      match reg s.name with
      | Option.some f =>
          match f acc s.params with
          | StepOutcome.ok w => w
          | _ => acc
      | Option.none => acc)
    v

/-! ## Broadcasting engine (engine.py `bulk_apply_pipe_rules`) -/

/-- A rule specification: a single rule string or a list of rule strings
(the two runtime types the source accepts; anything else raises
`ValueError` before any work is done and is outside the claims). -/
inductive RuleSpec where
  | str  : String → RuleSpec
  | list : List String → RuleSpec

/-- The reconciliation of a values list with a rule-string list
(engine.py lines 210-215): replicate a one-element rule list across many
values, replicate a single value across many rules, accept equal lengths,
and raise on any other mismatch. -/
def broadcastReconcileList (values : List Value) (rs : List String) :
    Except String (List Value × List String) :=
  if rs.length = 1 ∧ values.length > 1 then
    Except.ok (values, pyListMul rs values.length)
  else if values.length = 1 ∧ rs.length > 1 then
    Except.ok (pyListMul values rs.length, rs)
  else if rs.length ≠ values.length then
    Except.error "Length mismatch between values_list and rule_strings"
  else Except.ok (values, rs)

/-- Full reconciliation (engine.py lines 207-215): a plain string rule is
broadcast to every value. -/
def broadcastReconcile (values : List Value) (rules : RuleSpec) :
    Except String (List Value × List String) :=
  match rules with
  | RuleSpec.str s => Except.ok (values, List.replicate values.length s)
  | RuleSpec.list rs => broadcastReconcileList values rs

/-- The body of the per-pair loop (engine.py lines 221-228): an empty rule
string passes the value through; otherwise parse and execute, the rejected
flag being discarded (a rejected pair contributes `None`). -/
def applyOneRule (v : Value) (r : String) : Except String Value :=
  if r = "" then Except.ok v
  else
    match parse_dsl_rule r with
    | Except.error e => Except.error e
    | Except.ok steps =>
        match apply_transformations TRANSFORMS v steps with
        | Except.error e => Except.error e
        | Except.ok out => Except.ok out.1

/-- The per-pair loop over `zip(values_list, rule_strings)`. -/
def zipApplyRules : List Value → List String → Except String (List Value)
  | [], _ => Except.ok []
  | _, [] => Except.ok []
  | v :: vs, r :: rs =>
      match applyOneRule v r with
      | Except.error e => Except.error e
      | Except.ok out =>
          match zipApplyRules vs rs with
          | Except.error e => Except.error e
          | Except.ok rest => Except.ok (out :: rest)

/-- The caller-visible post-state of the `rule_strings` argument object:
the single-string branch rebinds a local name (caller unaffected), the
list branches mutate the caller's list in place to the reconciled list. -/
def postRules (rule_strings : RuleSpec) (rs2 : List String) : RuleSpec :=
  match rule_strings with
  | RuleSpec.str s => RuleSpec.str s
  | RuleSpec.list _ => RuleSpec.list rs2

/-- `bulk_apply_pipe_rules`, with the caller-visible post-state of its two
arguments made explicit.  The returned triple is
`(results, values_list after the call, rule_strings after the call)`:
the list-replication branches use CPython in-place repetition (`*=`) on the
caller's list objects, so their reconciled contents are what the caller
observes afterwards, while the single-string branch rebinds a local name
and leaves the caller's argument untouched. -/
def bulk_apply_pipe_rules_st (values_list : List Value) (rule_strings : RuleSpec) :
    Except String (List Value × List Value × RuleSpec) :=
  match broadcastReconcile values_list rule_strings with
  | Except.error e => Except.error e
  | Except.ok (vs2, rs2) =>
      match zipApplyRules vs2 rs2 with
      | Except.error e => Except.error e
      | Except.ok results => Except.ok (results, vs2, postRules rule_strings rs2)

/-- `bulk_apply_pipe_rules`: the results only. -/
def bulk_apply_pipe_rules (values_list : List Value) (rule_strings : RuleSpec) :
    Except String (List Value) :=
  match bulk_apply_pipe_rules_st values_list rule_strings with
  | Except.error e => Except.error e
  | Except.ok out => Except.ok out.1

/-- `transform`: apply a DSL rule to a single value
(`results[0] if results else None`). -/
def transform (value : Value) (rule_string : String) : Except String Value :=
  match bulk_apply_pipe_rules [value] (RuleSpec.str rule_string) with
  | Except.error e => Except.error e
  | Except.ok [] => Except.ok Value.none
  | Except.ok (x :: _) => Except.ok x

/-! ## Batch processor (batch_processor.py)

The per-batch retry logic and the producer's batching loop are sequential
programs and are embedded directly.  Worker scheduling only affects the
order in which `BatchResult`s are appended, never their contents, so the
claims about counts are stated over the list of per-batch results.  Rows
are opaque to the processor (only their count matters) and are modelled by
a type parameter. -/

/-- `BatchConfig` (defaults from the source; `timeout_seconds` is a float
`300.0` in the source, modelled as a natural number — it only appears
inside the timeout message). -/
structure BatchConfig where
  batch_size : Nat := 500
  max_workers : Nat := 4
  max_queue_size : Nat := 10
  timeout_seconds : Nat := 300
  retry_attempts : Nat := 3
  backpressure_enabled : Bool := true

/-- `BatchResult` (timing fields omitted: wall-clock time is outside the
model).  An `errors` entry models the `"error"` field of the structured
error record. -/
structure BatchResult where
  batch_id : Nat
  success_count : Nat
  error_count : Nat
  errors : List String

/-- The dict a processing function may return (`success_count`,
`error_count`, `errors`, each optional), or no dict at all. -/
structure ProcDict where
  success_count : Option Nat
  error_count : Option Nat
  errors : Option (List String)

/-- One attempt of the caller-supplied processing function on a batch:
a returned value (`some` dict or `none` for a non-dict result), a timeout,
or a raised exception carrying its message.  The function is indexed by
the attempt number to model statefulness across retries. -/
inductive ProcOutcome where
  | ok      : Option ProcDict → ProcOutcome
  | timeout : ProcOutcome
  | error   : String → ProcOutcome

/-- Result parsing on a successful attempt (batch_processor.py lines
251-269): missing `success_count` defaults to the batch size, missing
`error_count` to 0, missing `errors` to `[]`; a non-dict result is a full
success. -/
def parseProcResult (bid size : Nat) : Option ProcDict → BatchResult
  | Option.some d =>
      ⟨bid, d.success_count.getD size, d.error_count.getD 0, d.errors.getD []⟩
  | Option.none => ⟨bid, size, 0, []⟩

/-- The message recorded for a timed-out attempt. -/
def timeoutMsg (cfg : BatchConfig) (bid : Nat) : String :=
  "Batch " ++ toString bid ++ " timed out after " ++ toString cfg.timeout_seconds ++ "s"

/-- `str(last_exception)` as it appears in the synthetic error entry
(`"None"` when no attempt ran). -/
def lastExcStr : Option String → String
  | Option.some s => s
  | Option.none => "None"

/-- The fully-failed result produced after exhausting every retry. -/
def failedBatchResult (cfg : BatchConfig) (bid size : Nat) (last : Option String) :
    BatchResult :=
  ⟨bid, 0, size,
    ["Batch failed after " ++ toString cfg.retry_attempts ++ " retries: "
      ++ lastExcStr last]⟩

/-- The retry loop of `_process_batch_with_retry`: `remaining` attempts
left, `made` attempts already made (so the next attempt is numbered
`made + 1`, matching `range(1, retry_attempts + 1)`), `last` the message of
the last failure.  Returns the `BatchResult` together with the number of
processor invocations made (implicit in the Python trace, made explicit
here). -/
def retryGo (cfg : BatchConfig) (bid size : Nat) (proc : Nat → ProcOutcome) :
    Nat → Nat → Option String → BatchResult × Nat
  | 0, made, last => (failedBatchResult cfg bid size last, made)
  | remaining + 1, made, _ =>
      match proc (made + 1) with
      | ProcOutcome.ok r => (parseProcResult bid size r, made + 1)
      | ProcOutcome.timeout =>
          retryGo cfg bid size proc remaining (made + 1)
            (Option.some (timeoutMsg cfg bid))
      | ProcOutcome.error e =>
          retryGo cfg bid size proc remaining (made + 1) (Option.some e)

/-- `_process_batch_with_retry` on a batch of rows. -/
def process_batch_with_retry {Row : Type} (cfg : BatchConfig) (bid : Nat)
    (batch : List Row) (proc : Nat → ProcOutcome) : BatchResult × Nat :=
  retryGo cfg bid batch.length proc cfg.retry_attempts 0 Option.none

/-- The producer loop of `_produce_batches`: accumulate rows into
`cur`, emit a batch (with the next id `bid`) whenever the accumulated
count reaches `batch_size`, and emit the remainder as a final partial
batch. -/
def produceBatchesLoop {Row : Type} (k : Nat) :
    List Row → Nat → List Row → List (Nat × List Row)
  | [], bid, cur => if cur.isEmpty then [] else [(bid, cur)]
  | r :: rest, bid, cur =>
      let cur2 := cur ++ [r]
      if cur2.length ≥ k then (bid, cur2) :: produceBatchesLoop k rest (bid + 1) []
      else produceBatchesLoop k rest bid cur2

/-- `_produce_batches`: the list of `(batch_id, rows)` pushed onto the queue. -/
def produce_batches {Row : Type} (k : Nat) (rows : List Row) : List (Nat × List Row) :=
  produceBatchesLoop k rows 0 []

/-! ## General lemmas about the string model -/

theorem isPrefixOf_append_self (p x : List Char) : p.isPrefixOf (p ++ x) = true := by
  induction p with
  | nil => simp [List.isPrefixOf]
  | cons a as ih => simp [List.isPrefixOf, ih]

theorem isPrefixOf_append_false (p s x : List Char)
    (h1 : p.isPrefixOf s = false) (h2 : s.isPrefixOf p = false) :
    p.isPrefixOf (s ++ x) = false := by
  induction p generalizing s with
  | nil => simp [List.isPrefixOf] at h1
  | cons a as ih =>
    cases s with
    | nil => simp [List.isPrefixOf] at h2
    | cons b bs =>
      by_cases hab : a = b
      · subst hab
        simp only [List.isPrefixOf, List.cons_append, beq_self_eq_true,
          Bool.true_and] at h1 h2 ⊢
        exact ih bs h1 h2
      · simp [List.isPrefixOf, List.cons_append, beq_iff_eq, hab]

theorem data_append (s t : String) : (s ++ t).data = s.data ++ t.data := by
  cases s; cases t; rfl

theorem pyStartsWith_append_self (s x : String) : pyStartsWith (s ++ x) s = true := by
  show (s.data.isPrefixOf (s ++ x).data) = true
  rw [data_append]; exact isPrefixOf_append_self _ _

theorem pyStartsWith_append_false (a s x : String)
    (h1 : pyStartsWith s a = false) (h2 : pyStartsWith a s = false) :
    pyStartsWith (s ++ x) a = false := by
  show (a.data.isPrefixOf (s ++ x).data) = false
  rw [data_append]; exact isPrefixOf_append_false _ _ _ h1 h2

theorem pyStartsWith_self (s : String) : pyStartsWith s s = true := by
  show (s.data.isPrefixOf s.data) = true
  have h := isPrefixOf_append_self s.data []
  rw [List.append_nil] at h
  exact h

theorem ne_of_pyStartsWith_false (s t : String) (h : pyStartsWith s t = false) :
    s ≠ t := by
  intro he; subst he; rw [pyStartsWith_self] at h; cases h

theorem strne_of_length (s t : String) (h : s.data.length ≠ t.data.length) :
    s ≠ t := by
  intro he; subst he; exact h rfl

theorem str_ne_empty (s : String) (c : Char) (l : List Char) (h : s.data = c :: l) :
    s ≠ "" := by
  intro he; subst he; cases h

theorem isPrefixOf_of_isPrefixOf_isPrefixOf (p q l : List Char)
    (h1 : p.isPrefixOf q = true) (h2 : q.isPrefixOf l = true) :
    p.isPrefixOf l = true := by
  rw [List.isPrefixOf_iff_prefix] at h1 h2 ⊢
  exact h1.trans h2

theorem pyStartsWith_mono (s p q : String) (hpq : pyStartsWith q p = true)
    (h : pyStartsWith s q = true) : pyStartsWith s p = true :=
  isPrefixOf_of_isPrefixOf_isPrefixOf _ _ _ hpq h

theorem splitFirstChar_pre (sep : Char) (pre l : List Char)
    (h : ∀ c ∈ pre, c ≠ sep) :
    splitFirstChar sep (pre ++ sep :: l) = Option.some (pre, l) := by
  induction pre with
  | nil => simp [splitFirstChar]
  | cons a as ih =>
    have ha : a ≠ sep := h a (by simp)
    simp [splitFirstChar, ha, ih (fun c hc => h c (by simp [hc]))]

theorem pyDrop_append (s t : String) (n : Nat) (h : s.data.length = n) :
    pyDrop (s ++ t) n = t := by
  show (⟨(s ++ t).data.drop n⟩ : String) = t
  rw [data_append, ← h, List.drop_left]

theorem pyLStrip_of_head (s : String) (c : Char) (l : List Char)
    (h : s.data = c :: l) (hc : isPySpace c = false) : pyLStrip s = s := by
  show (⟨s.data.dropWhile (fun c => isPySpace c)⟩ : String) = s
  rw [h, List.dropWhile_cons_of_neg (by simp [hc])]
  exact congrArg String.mk h.symm

theorem pyListMul_singleton (a : α) (n : Nat) :
    pyListMul [a] n = List.replicate n a := by
  induction n with
  | zero => rfl
  | succ m ih => simp [pyListMul, List.replicate, ih]

/-! ## C1: broadcasting reconciliation -/

/-- C1: in `bulk_apply_pipe_rules`, a single rule string is broadcast to
every value; a one-element rule list with more than one value replicates
the rule; a single value with more than one rule replicates the value;
equal-length lists pair up element-wise; any other length mismatch raises
the broadcast-mismatch `ValueError`. -/
theorem C1_broadcast_reconciliation :
    (∀ (vs : List Value) (s : String),
        broadcastReconcile vs (RuleSpec.str s) =
          Except.ok (vs, List.replicate vs.length s)) ∧
    (∀ (vs : List Value) (r : String), vs.length > 1 →
        broadcastReconcile vs (RuleSpec.list [r]) =
          Except.ok (vs, List.replicate vs.length r)) ∧
    (∀ (v : Value) (rs : List String), rs.length > 1 →
        broadcastReconcile [v] (RuleSpec.list rs) =
          Except.ok (List.replicate rs.length v, rs)) ∧
    (∀ (vs : List Value) (rs : List String), rs.length = vs.length →
        broadcastReconcile vs (RuleSpec.list rs) = Except.ok (vs, rs)) ∧
    (∀ (vs : List Value) (rs : List String),
        ¬(rs.length = 1 ∧ vs.length > 1) → ¬(vs.length = 1 ∧ rs.length > 1) →
        rs.length ≠ vs.length →
        bulk_apply_pipe_rules vs (RuleSpec.list rs) =
          Except.error "Length mismatch between values_list and rule_strings") := by
  refine ⟨fun vs s => rfl, ?_, ?_, ?_, ?_⟩
  · intro vs r h
    simp [broadcastReconcile, broadcastReconcileList, h, pyListMul_singleton]
  · intro v rs h
    have h1 : ¬(rs.length = 1 ∧ ([v] : List Value).length > 1) := by simp
    simp [broadcastReconcile, broadcastReconcileList, h1, h, pyListMul_singleton]
  · intro vs rs h
    simp only [broadcastReconcile, broadcastReconcileList, h]
    rw [if_neg (by omega), if_neg (by omega), if_neg (by omega)]
  · intro vs rs h1 h2 h3
    simp [bulk_apply_pipe_rules, bulk_apply_pipe_rules_st, broadcastReconcile,
      broadcastReconcileList, h1, h2, h3]

/-- Witness for C1 at concrete inputs. -/
theorem C1_broadcast_witness :
    broadcastReconcile [Value.int 1, Value.int 2] (RuleSpec.list ["uppercase"]) =
      Except.ok ([Value.int 1, Value.int 2], ["uppercase", "uppercase"]) ∧
    bulk_apply_pipe_rules [] (RuleSpec.list ["uppercase"]) =
      Except.error "Length mismatch between values_list and rule_strings" := by
  constructor
  · have h := C1_broadcast_reconciliation.2.1 [Value.int 1, Value.int 2]
      "uppercase" (by decide)
    rw [h]; rfl
  · exact C1_broadcast_reconciliation.2.2.2.2 [] ["uppercase"]
      (by simp) (by simp) (by simp)

/-- Unfolding of `bulk_apply_pipe_rules_st` after a successful reconcile. -/
theorem bulk_st_eq (values : List Value) (rules : RuleSpec) (vs2 : List Value)
    (rs2 : List String)
    (hrec : broadcastReconcile values rules = Except.ok (vs2, rs2)) :
    bulk_apply_pipe_rules_st values rules =
      match zipApplyRules vs2 rs2 with
      | Except.error e => Except.error e
      | Except.ok results =>
          Except.ok (results, vs2, postRules rules rs2) := by
  rw [bulk_apply_pipe_rules_st, hrec]

/-! ## C10: in-place mutation by the replication branches -/

/-- C10: when broadcasting replicates (one-element rule list against many
values, or one value against many rules), the caller's list object is
extended in place by `*=`, so after a successful call the corresponding
argument holds the replicated list and is no longer its original
one-element self. -/
theorem C10_inplace_broadcast_mutation :
    (∀ (vs : List Value) (r : String) (out : List Value × List Value × RuleSpec),
        vs.length > 1 →
        bulk_apply_pipe_rules_st vs (RuleSpec.list [r]) = Except.ok out →
        out.2.2 = RuleSpec.list (List.replicate vs.length r) ∧
        out.2.2 ≠ RuleSpec.list [r]) ∧
    (∀ (v : Value) (rs : List String) (out : List Value × List Value × RuleSpec),
        rs.length > 1 →
        bulk_apply_pipe_rules_st [v] (RuleSpec.list rs) = Except.ok out →
        out.2.1 = List.replicate rs.length v ∧ out.2.1 ≠ [v]) := by
  constructor
  · intro vs r out h hok
    have hrec := C1_broadcast_reconciliation.2.1 vs r h
    rw [bulk_st_eq vs (RuleSpec.list [r]) vs (List.replicate vs.length r) hrec] at hok
    cases hz : zipApplyRules vs (List.replicate vs.length r) with
    | error e => rw [hz] at hok; cases hok
    | ok results =>
      rw [hz] at hok
      have hout := Except.ok.inj hok
      rw [← hout]
      refine ⟨rfl, ?_⟩
      intro he
      have hlen : (List.replicate vs.length r).length = ([r] : List String).length := by
        rw [RuleSpec.list.inj he]
      simp at hlen
      omega
  · intro v rs out h hok
    have hrec := C1_broadcast_reconciliation.2.2.1 v rs h
    rw [bulk_st_eq [v] (RuleSpec.list rs) (List.replicate rs.length v) rs hrec] at hok
    cases hz : zipApplyRules (List.replicate rs.length v) rs with
    | error e => rw [hz] at hok; cases hok
    | ok results =>
      rw [hz] at hok
      have hout := Except.ok.inj hok
      rw [← hout]
      refine ⟨rfl, ?_⟩
      intro he
      have hlen : (List.replicate rs.length v).length = ([v] : List Value).length :=
        congrArg List.length he
      simp at hlen
      omega

/-- Witness for C10 at concrete inputs (both replication directions). -/
theorem C10_mutation_witness :
    (bulk_apply_pipe_rules_st [Value.str "x", Value.str "y"]
        (RuleSpec.list ["uppercase"]) =
      Except.ok ([Value.str "X", Value.str "Y"],
        [Value.str "x", Value.str "y"],
        RuleSpec.list ["uppercase", "uppercase"])) ∧
    (RuleSpec.list ["uppercase", "uppercase"] ≠ RuleSpec.list ["uppercase"]) ∧
    ([Value.str "x", Value.str "x"] ≠ [Value.str "x"]) := by
  refine ⟨rfl, ?_, ?_⟩
  · exact (C10_inplace_broadcast_mutation.1 [Value.str "x", Value.str "y"]
      "uppercase" ([Value.str "X", Value.str "Y"],
        [Value.str "x", Value.str "y"],
        RuleSpec.list ["uppercase", "uppercase"]) (by decide) rfl).2
  · exact (C10_inplace_broadcast_mutation.2 (Value.str "x")
      ["uppercase", "lowercase"] ([Value.str "X", Value.str "x"],
        [Value.str "x", Value.str "x"],
        RuleSpec.list ["uppercase", "lowercase"]) (by decide) rfl).2

/-- Unfolding of one executor step once the registry lookup is known. -/
theorem apply_transformations_cons (reg : String → Option Op) (v : Value)
    (s : Step) (rest : List Step) (f : Op) (hf : reg s.name = Option.some f) :
    apply_transformations reg v (s :: rest) =
      match f v s.params with
      | StepOutcome.ok w => apply_transformations reg w rest
      | StepOutcome.rejectRow => Except.ok (Value.none, true)
      | StepOutcome.fault _ => apply_transformations reg v rest := by
  rw [apply_transformations, hf]

/-! ## C2: the rejects step short-circuits the chain -/

/-- C2: for every value and every step list whose operation names are all
registered (in any registry whose `rejects` entry is the rejecting
operation, as in the source registry), a chain containing a `rejects` step
resolves to `(None, True)`: the value is discarded, whatever follows the
rejecting step. -/
theorem C2_rejects_short_circuit (reg : String → Option Op) (v : Value)
    (steps : List Step)
    (hreg : ∀ s ∈ steps, (reg s.name).isSome)
    (hrej : reg "rejects" = Option.some rejects)
    (hmem : ∃ s ∈ steps, s.name = "rejects") :
    apply_transformations reg v steps = Except.ok (Value.none, true) := by
  induction steps generalizing v with
  | nil => simp at hmem
  | cons s rest ih =>
    by_cases hn : s.name = "rejects"
    · have hf : reg s.name = Option.some rejects := by rw [hn, hrej]
      rw [apply_transformations_cons reg v s rest rejects hf]
      rfl
    · have hs := hreg s (by simp)
      rw [Option.isSome_iff_exists] at hs
      obtain ⟨f, hf⟩ := hs
      have hreg2 : ∀ t ∈ rest, (reg t.name).isSome := fun t ht =>
        hreg t (by simp [ht])
      have hmem2 : ∃ t ∈ rest, t.name = "rejects" := by
        obtain ⟨t, ht, htn⟩ := hmem
        rcases List.mem_cons.mp ht with heq | hmemr
        · exact absurd (heq ▸ htn) hn
        · exact ⟨t, hmemr, htn⟩
      rw [apply_transformations_cons reg v s rest f hf]
      cases f v s.params with
      | ok w => exact ih w hreg2 hmem2
      | rejectRow => rfl
      | fault e => exact ih v hreg2 hmem2

/-- Witness for C2: a chain `uppercase + rejects + lowercase` on the real
registry rejects and discards the value. -/
theorem C2_rejects_witness :
    apply_transformations TRANSFORMS (Value.str "hi")
      [⟨"uppercase", []⟩, ⟨"rejects", []⟩, ⟨"lowercase", []⟩] =
      Except.ok (Value.none, true) :=
  C2_rejects_short_circuit TRANSFORMS (Value.str "hi")
    [⟨"uppercase", []⟩, ⟨"rejects", []⟩, ⟨"lowercase", []⟩]
    (by intro s hs; fin_cases hs <;> rfl)
    rfl
    ⟨⟨"rejects", []⟩, by simp, rfl⟩

/-- Unfolding of one fold step of `failSoftFold`. -/
theorem failSoftFold_cons (reg : String → Option Op) (v : Value) (s : Step)
    (rest : List Step) (f : Op) (hf : reg s.name = Option.some f) :
    failSoftFold reg v (s :: rest) =
      failSoftFold reg
        (match f v s.params with
         | StepOutcome.ok w => w
         | _ => v) rest := by
  simp only [failSoftFold, List.foldl_cons, hf]

/-! ## C3: fail-soft execution -/

/-- C3: with every step name registered, `apply_transformations` never
propagates a per-step fault as an exception (it always returns a result),
a faulting head step leaves the value exactly as it was and the chain
continues with the remaining steps, and a run that was not rejected
returns the fold of the non-faulting steps, in order. -/
theorem C3_fail_soft (reg : String → Option Op) (v : Value) (steps : List Step)
    (hreg : ∀ s ∈ steps, (reg s.name).isSome) :
    (∃ out, apply_transformations reg v steps = Except.ok out ∧
        (out.2 = false → out.1 = failSoftFold reg v steps)) ∧
    (∀ (s : Step) (rest : List Step) (f : Op) (e : String),
        reg s.name = Option.some f → f v s.params = StepOutcome.fault e →
        apply_transformations reg v (s :: rest) =
          apply_transformations reg v rest) := by
  constructor
  · induction steps generalizing v with
    | nil => exact ⟨(v, false), rfl, fun _ => rfl⟩
    | cons s rest ih =>
      have hs := hreg s (by simp)
      rw [Option.isSome_iff_exists] at hs
      obtain ⟨f, hf⟩ := hs
      have hreg2 : ∀ t ∈ rest, (reg t.name).isSome := fun t ht =>
        hreg t (by simp [ht])
      rw [apply_transformations_cons reg v s rest f hf]
      cases hout : f v s.params with
      | ok w =>
        obtain ⟨out, h1, h2⟩ := ih w hreg2
        refine ⟨out, h1, fun hfalse => ?_⟩
        rw [failSoftFold_cons reg v s rest f hf, hout]
        exact h2 hfalse
      | rejectRow =>
        exact ⟨(Value.none, true), rfl, fun hfalse => by cases hfalse⟩
      | fault e =>
        obtain ⟨out, h1, h2⟩ := ih v hreg2
        refine ⟨out, h1, fun hfalse => ?_⟩
        rw [failSoftFold_cons reg v s rest f hf, hout]
        exact h2 hfalse
  · intro s rest f e hf hfa
    rw [apply_transformations_cons reg v s rest f hf, hfa]

/-- Witness for C3: `addition` on a non-numeric string faults
(`float("oops")` raises) and the chain continues on the original value. -/
theorem C3_fail_soft_witness :
    (∃ out,
        apply_transformations TRANSFORMS (Value.str "oops")
          [⟨"addition", [("amount", Value.str "5")]⟩, ⟨"uppercase", []⟩] =
          Except.ok out ∧
        (out.2 = false →
          out.1 = failSoftFold TRANSFORMS (Value.str "oops")
            [⟨"addition", [("amount", Value.str "5")]⟩, ⟨"uppercase", []⟩])) ∧
    (∀ (s : Step) (rest : List Step) (f : Op) (e : String),
        TRANSFORMS s.name = Option.some f →
        f (Value.str "oops") s.params = StepOutcome.fault e →
        apply_transformations TRANSFORMS (Value.str "oops") (s :: rest) =
          apply_transformations TRANSFORMS (Value.str "oops") rest) :=
  C3_fail_soft TRANSFORMS (Value.str "oops")
    [⟨"addition", [("amount", Value.str "5")]⟩, ⟨"uppercase", []⟩]
    (by intro s hs; fin_cases hs <;> rfl)

/-! ## C4: retry exhaustion on an always-raising processor -/

/-- The message recorded for a failed attempt outcome. -/
def procFailMsg (cfg : BatchConfig) (bid : Nat) : ProcOutcome → String
  | ProcOutcome.timeout => timeoutMsg cfg bid
  | ProcOutcome.error e => e
  | ProcOutcome.ok _ => ""

theorem retryGo_allfail (cfg : BatchConfig) (bid size : Nat)
    (proc : Nat → ProcOutcome)
    (hfail : ∀ n r, proc n ≠ ProcOutcome.ok r) :
    ∀ remaining made last, 1 ≤ remaining →
      retryGo cfg bid size proc remaining made last =
        (failedBatchResult cfg bid size
          (Option.some (procFailMsg cfg bid (proc (made + remaining)))),
         made + remaining) := by
  intro remaining
  induction remaining with
  | zero => intro made last h; omega
  | succ rem ih =>
    intro made last _
    cases hp : proc (made + 1) with
    | ok r => exact absurd hp (hfail (made + 1) r)
    | timeout =>
      have hstep : retryGo cfg bid size proc (rem + 1) made last =
          retryGo cfg bid size proc rem (made + 1)
            (Option.some (timeoutMsg cfg bid)) := by
        rw [retryGo, hp]
      rw [hstep]
      cases rem with
      | zero =>
        rw [retryGo, show made + (0 + 1) = made + 1 from rfl, hp]
        rfl
      | succ rem2 =>
        rw [ih (made + 1) (Option.some (timeoutMsg cfg bid)) (by omega),
          show made + 1 + (rem2 + 1) = made + (rem2 + 1 + 1) by omega]
    | error e =>
      have hstep : retryGo cfg bid size proc (rem + 1) made last =
          retryGo cfg bid size proc rem (made + 1) (Option.some e) := by
        rw [retryGo, hp]
      rw [hstep]
      cases rem with
      | zero =>
        rw [retryGo, show made + (0 + 1) = made + 1 from rfl, hp]
        rfl
      | succ rem2 =>
        rw [ih (made + 1) (Option.some e) (by omega),
          show made + 1 + (rem2 + 1) = made + (rem2 + 1 + 1) by omega]

/-- C4: a processing function that never returns a value (it raises or
times out on every attempt) is invoked exactly `retry_attempts` times,
after which the batch is recorded as fully failed: zero successes, an
error count equal to the batch size, and one synthetic error entry built
from the retry count and the last failure's message. -/
theorem C4_retry_exhaustion {Row : Type} (cfg : BatchConfig) (bid : Nat)
    (batch : List Row) (proc : Nat → ProcOutcome)
    (_hne : batch ≠ []) (hra : 1 ≤ cfg.retry_attempts)
    (hfail : ∀ n r, proc n ≠ ProcOutcome.ok r) :
    process_batch_with_retry cfg bid batch proc =
      (⟨bid, 0, batch.length,
         ["Batch failed after " ++ toString cfg.retry_attempts ++ " retries: "
           ++ procFailMsg cfg bid (proc cfg.retry_attempts)]⟩,
       cfg.retry_attempts) := by
  rw [process_batch_with_retry,
    retryGo_allfail cfg bid batch.length proc hfail cfg.retry_attempts 0
      Option.none hra]
  rw [Nat.zero_add]
  rfl

/-- Witness for C4: three attempts on an always-raising processor, after
which the two-row batch is recorded as fully failed. -/
theorem C4_retry_witness :
    process_batch_with_retry {} 0 [(), ()]
      (fun _ => ProcOutcome.error "boom") =
      (⟨0, 0, 2, ["Batch failed after 3 retries: boom"]⟩, 3) := by
  rw [C4_retry_exhaustion {} 0 [(), ()] (fun _ => ProcOutcome.error "boom")
    (by decide) (by decide) (fun n r h => ProcOutcome.noConfusion h)]
  rfl

/-! ## C9: the empty rule string is an identity -/

theorem zipApplyRules_empty_rule (vs : List Value) :
    ∀ (rs : List String) (out : List Value) (i : Nat) (v : Value),
      zipApplyRules vs rs = Except.ok out →
      vs.get? i = Option.some v → rs.get? i = Option.some "" →
      out.get? i = Option.some v := by
  induction vs with
  | nil => intro rs out i v _ hv _; simp at hv
  | cons v0 vs2 ih =>
    intro rs out i v hok hv hr
    cases rs with
    | nil => simp at hr
    | cons r rs2 =>
      rw [zipApplyRules] at hok
      cases i with
      | zero =>
        simp only [List.get?] at hv hr ⊢
        have hr0 : r = "" := Option.some.inj hr
        subst hr0
        have hone : applyOneRule v0 "" = Except.ok v0 := rfl
        rw [hone] at hok
        cases hz : zipApplyRules vs2 rs2 with
        | error e => rw [hz] at hok; cases hok
        | ok rest =>
          rw [hz] at hok
          have hout := Except.ok.inj hok
          rw [← hout]
          simp only [List.get?]
          exact hv
      | succ j =>
        simp only [List.get?] at hv hr ⊢
        cases hinner : applyOneRule v0 r with
        | error e => rw [hinner] at hok; cases hok
        | ok o =>
          rw [hinner] at hok
          cases hz : zipApplyRules vs2 rs2 with
          | error e => rw [hz] at hok; cases hok
          | ok rest =>
            rw [hz] at hok
            have := Except.ok.inj hok
            rw [← this]
            simp only [List.get?]
            exact ih rs2 rest j v hz hv hr

/-- C9: the empty rule string is an identity: `transform(v, "") == v` for
every value, and inside `bulk_apply_pipe_rules` any pair whose
(reconciled) rule string is empty passes its value through unchanged
rather than raising. -/
theorem C9_empty_rule_identity :
    (∀ v : Value, transform v "" = Except.ok v) ∧
    (∀ (vs : List Value) (rules : RuleSpec) (vs2 : List Value)
        (rs2 : List String) (out : List Value) (i : Nat) (v : Value),
        broadcastReconcile vs rules = Except.ok (vs2, rs2) →
        bulk_apply_pipe_rules vs rules = Except.ok out →
        vs2.get? i = Option.some v → rs2.get? i = Option.some "" →
        out.get? i = Option.some v) := by
  constructor
  · intro v; rfl
  · intro vs rules vs2 rs2 out i v hrec hok hv hr
    rw [bulk_apply_pipe_rules,
      bulk_st_eq vs rules vs2 rs2 hrec] at hok
    cases hz : zipApplyRules vs2 rs2 with
    | error e => rw [hz] at hok; cases hok
    | ok results =>
      rw [hz] at hok
      have : results = out := Except.ok.inj hok
      subst this
      exact zipApplyRules_empty_rule vs2 rs2 results i v hz hv hr

/-- Witness for C9 at concrete inputs: a mixed rule list where the empty
rule passes its value through while the other rule transforms. -/
theorem C9_empty_rule_witness :
    transform (Value.int 5) "" = Except.ok (Value.int 5) ∧
    bulk_apply_pipe_rules [Value.str "a", Value.str "b"]
        (RuleSpec.list ["", "uppercase"]) =
      Except.ok [Value.str "a", Value.str "B"] ∧
    ([Value.str "a", Value.str "B"] : List Value).get? 0 =
      Option.some (Value.str "a") := by
  refine ⟨C9_empty_rule_identity.1 (Value.int 5), rfl, ?_⟩
  exact C9_empty_rule_identity.2 [Value.str "a", Value.str "b"]
    (RuleSpec.list ["", "uppercase"]) [Value.str "a", Value.str "b"]
    ["", "uppercase"] [Value.str "a", Value.str "B"] 0 (Value.str "a")
    rfl rfl rfl rfl

/-! ## Parser evaluation lemmas -/

/-- A rule that tokenizes to a single non-empty token (non-space first
character) parses to exactly its token's step. -/
theorem parse_single_token (rule : String) (h : tokensOf rule = [rule])
    (c : Char) (l : List Char) (hd : rule.data = c :: l)
    (hc : isPySpace c = false) :
    parse_dsl_rule rule = (parseToken rule).map (fun s => [s]) := by
  rw [parse_dsl_rule, h]
  simp only [parseTokens]
  rw [pyLStrip_of_head rule c l hd hc, if_neg (str_ne_empty rule c l hd)]
  cases parseToken rule with
  | error e => rfl
  | ok st => rfl

theorem parseToken_set_number (x : String) :
    parseToken ("set_number|" ++ x) =
      Except.ok ⟨"set_number", [("value", Value.str x)]⟩ := by
  have n01 : pyStartsWith ("set_number|" ++ x) "split|" = false :=
    pyStartsWith_append_false _ _ _ (by decide) (by decide)
  have n02 : pyStartsWith ("set_number|" ++ x) "join|" = false :=
    pyStartsWith_append_false _ _ _ (by decide) (by decide)
  have n03 : pyStartsWith ("set_number|" ++ x) "prefix|" = false :=
    pyStartsWith_append_false _ _ _ (by decide) (by decide)
  have n04 : pyStartsWith ("set_number|" ++ x) "suffix|" = false :=
    pyStartsWith_append_false _ _ _ (by decide) (by decide)
  have n05 : pyStartsWith ("set_number|" ++ x) "replace_regex|" = false :=
    pyStartsWith_append_false _ _ _ (by decide) (by decide)
  have n06 : pyStartsWith ("set_number|" ++ x) "replace|" = false :=
    pyStartsWith_append_false _ _ _ (by decide) (by decide)
  have n07 : pyStartsWith ("set_number|" ++ x) "vlookup|" = false :=
    pyStartsWith_append_false _ _ _ (by decide) (by decide)
  have n08 : pyStartsWith ("set_number|" ++ x) "addition|" = false :=
    pyStartsWith_append_false _ _ _ (by decide) (by decide)
  have n09 : pyStartsWith ("set_number|" ++ x) "subtraction|" = false :=
    pyStartsWith_append_false _ _ _ (by decide) (by decide)
  have n10 : pyStartsWith ("set_number|" ++ x) "multiplication|" = false :=
    pyStartsWith_append_false _ _ _ (by decide) (by decide)
  have n11 : pyStartsWith ("set_number|" ++ x) "division|" = false :=
    pyStartsWith_append_false _ _ _ (by decide) (by decide)
  have n12 : pyStartsWith ("set_number|" ++ x) "percentage|" = false :=
    pyStartsWith_append_false _ _ _ (by decide) (by decide)
  have n13 : pyStartsWith ("set_number|" ++ x) "strip|" = false :=
    pyStartsWith_append_false _ _ _ (by decide) (by decide)
  have n14 : pyStartsWith ("set_number|" ++ x) "set|" = false :=
    pyStartsWith_append_false _ _ _ (by decide) (by decide)
  have hpos : pyStartsWith ("set_number|" ++ x) "set_number|" = true :=
    pyStartsWith_append_self _ _
  have hafp : afterFirstPipe ("set_number|" ++ x) = x := by
    rw [afterFirstPipe]
    have hd : ("set_number|" ++ x).data =
        ['s', 'e', 't', '_', 'n', 'u', 'm', 'b', 'e', 'r'] ++ '|' :: x.data := by
      rw [data_append]; rfl
    rw [hd, splitFirstChar_pre '|'
      ['s', 'e', 't', '_', 'n', 'u', 'm', 'b', 'e', 'r'] x.data (by decide)]
  simp [parseToken, n01, n02, n03, n04, n05, n06, n07, n08, n09, n10, n11,
    n12, n13, n14, hpos, hafp]

theorem parseToken_set (x : String) :
    parseToken ("set|" ++ x) = Except.ok ⟨"set", [("value", Value.str x)]⟩ := by
  have n01 : pyStartsWith ("set|" ++ x) "split|" = false :=
    pyStartsWith_append_false _ _ _ (by decide) (by decide)
  have n02 : pyStartsWith ("set|" ++ x) "join|" = false :=
    pyStartsWith_append_false _ _ _ (by decide) (by decide)
  have n03 : pyStartsWith ("set|" ++ x) "prefix|" = false :=
    pyStartsWith_append_false _ _ _ (by decide) (by decide)
  have n04 : pyStartsWith ("set|" ++ x) "suffix|" = false :=
    pyStartsWith_append_false _ _ _ (by decide) (by decide)
  have n05 : pyStartsWith ("set|" ++ x) "replace_regex|" = false :=
    pyStartsWith_append_false _ _ _ (by decide) (by decide)
  have n06 : pyStartsWith ("set|" ++ x) "replace|" = false :=
    pyStartsWith_append_false _ _ _ (by decide) (by decide)
  have n07 : pyStartsWith ("set|" ++ x) "vlookup|" = false :=
    pyStartsWith_append_false _ _ _ (by decide) (by decide)
  have n08 : pyStartsWith ("set|" ++ x) "addition|" = false :=
    pyStartsWith_append_false _ _ _ (by decide) (by decide)
  have n09 : pyStartsWith ("set|" ++ x) "subtraction|" = false :=
    pyStartsWith_append_false _ _ _ (by decide) (by decide)
  have n10 : pyStartsWith ("set|" ++ x) "multiplication|" = false :=
    pyStartsWith_append_false _ _ _ (by decide) (by decide)
  have n11 : pyStartsWith ("set|" ++ x) "division|" = false :=
    pyStartsWith_append_false _ _ _ (by decide) (by decide)
  have n12 : pyStartsWith ("set|" ++ x) "percentage|" = false :=
    pyStartsWith_append_false _ _ _ (by decide) (by decide)
  have n13 : pyStartsWith ("set|" ++ x) "strip|" = false :=
    pyStartsWith_append_false _ _ _ (by decide) (by decide)
  have hpos : pyStartsWith ("set|" ++ x) "set|" = true :=
    pyStartsWith_append_self _ _
  have hafp : afterFirstPipe ("set|" ++ x) = x := by
    rw [afterFirstPipe]
    have hd : ("set|" ++ x).data = ['s', 'e', 't'] ++ '|' :: x.data := by
      rw [data_append]; rfl
    rw [hd, splitFirstChar_pre '|' ['s', 'e', 't'] x.data (by decide)]
  simp [parseToken, n01, n02, n03, n04, n05, n06, n07, n08, n09, n10, n11,
    n12, n13, hpos, hafp]

/-- Unfolding of `transform` through a successfully parsed rule. -/
theorem transform_via_steps (v : Value) (rule : String) (hne : rule ≠ "")
    (steps : List Step) (hp : parse_dsl_rule rule = Except.ok steps) :
    transform v rule =
      match apply_transformations TRANSFORMS v steps with
      | Except.error e => Except.error e
      | Except.ok out => Except.ok out.1 := by
  have hone : applyOneRule v rule =
      match apply_transformations TRANSFORMS v steps with
      | Except.error e => Except.error e
      | Except.ok out => Except.ok out.1 := by
    rw [applyOneRule, if_neg hne, hp]
  have hzip : zipApplyRules [v] [rule] =
      match apply_transformations TRANSFORMS v steps with
      | Except.error e => Except.error e
      | Except.ok out => Except.ok [out.1] := by
    rw [zipApplyRules, hone]
    cases happ : apply_transformations TRANSFORMS v steps with
    | error e => rfl
    | ok out => rfl
  rw [transform, bulk_apply_pipe_rules,
    bulk_st_eq [v] (RuleSpec.str rule) [v] (List.replicate 1 rule) rfl,
    List.replicate_one, hzip]
  cases happ : apply_transformations TRANSFORMS v steps with
  | error e => rfl
  | ok out => rfl

/-! ## C7: set / set_number constants (corrected) -/

/-- Evaluation of the `set_number` operation on a string argument: it is
`int(value)`, raising (`fault`) on non-integer literals. -/
theorem set_number_eval (v : Value) (x : String) :
    set_number v [("value", Value.str x)] =
      match pyIntOfString x with
      | Option.some n => StepOutcome.ok (Value.int n)
      | Option.none => StepOutcome.fault "ValueError: invalid literal for int" :=
  rfl

/-- C7 counterexample: the claim asserts `transform(v, "set_number|" + x)`
is the constant number parsed from `x` for every numeric literal `x`,
independent of `v` — but for the numeric literal `"2.5"`, `int("2.5")`
raises, the executor swallows the fault, and the result is the input
itself (two different inputs give two different outputs). -/
theorem C7_set_number_counterexample :
    transform (Value.str "hello") "set_number|2.5" =
      Except.ok (Value.str "hello") ∧
    transform (Value.str "world") "set_number|2.5" =
      Except.ok (Value.str "world") ∧
    Value.str "hello" ≠ Value.str "world" := by
  refine ⟨rfl, rfl, ?_⟩
  intro h
  have : "hello" = "world" := Value.str.inj h
  exact absurd this (by decide)

/-- C7 (amended): `set` ignores the input and returns the literal string
constant; `set_number` ignores the input and returns the constant
`int(x)` whenever `x` parses as an integer literal; but when `int(x)`
raises (for instance on a decimal literal such as `"2.5"`), the fail-soft
executor returns the input value unchanged, so the result is not a
constant.  (The tokenization hypothesis pins the rule to a single token,
which holds whenever `x` contains no chain separator.) -/
theorem C7_set_constants_amended :
    (∀ (v : Value) (x : String),
        tokensOf ("set|" ++ x) = ["set|" ++ x] →
        transform v ("set|" ++ x) = Except.ok (Value.str x)) ∧
    (∀ (v : Value) (x : String) (n : Int),
        tokensOf ("set_number|" ++ x) = ["set_number|" ++ x] →
        pyIntOfString x = Option.some n →
        transform v ("set_number|" ++ x) = Except.ok (Value.int n)) ∧
    (∀ (v : Value) (x : String),
        tokensOf ("set_number|" ++ x) = ["set_number|" ++ x] →
        pyIntOfString x = Option.none →
        transform v ("set_number|" ++ x) = Except.ok v) := by
  refine ⟨?_, ?_, ?_⟩
  · intro v x htok
    have hd : ("set|" ++ x).data = 's' :: ('e' :: 't' :: '|' :: x.data) := by
      rw [data_append]; rfl
    have hp := parse_single_token ("set|" ++ x) htok 's' _ hd (by decide)
    rw [parseToken_set x] at hp
    simp only [Except.map] at hp
    rw [transform_via_steps v _ (str_ne_empty _ _ _ hd) _ hp]
    rfl
  · intro v x n htok hx
    have hd : ("set_number|" ++ x).data =
        's' :: ('e' :: 't' :: '_' :: 'n' :: 'u' :: 'm' :: 'b' :: 'e' :: 'r'
          :: '|' :: x.data) := by
      rw [data_append]; rfl
    have hp := parse_single_token ("set_number|" ++ x) htok 's' _ hd (by decide)
    rw [parseToken_set_number x] at hp
    simp only [Except.map] at hp
    rw [transform_via_steps v _ (str_ne_empty _ _ _ hd) _ hp]
    rw [apply_transformations_cons TRANSFORMS v
      ⟨"set_number", [("value", Value.str x)]⟩ [] set_number rfl,
      set_number_eval, hx]
    rfl
  · intro v x htok hx
    have hd : ("set_number|" ++ x).data =
        's' :: ('e' :: 't' :: '_' :: 'n' :: 'u' :: 'm' :: 'b' :: 'e' :: 'r'
          :: '|' :: x.data) := by
      rw [data_append]; rfl
    have hp := parse_single_token ("set_number|" ++ x) htok 's' _ hd (by decide)
    rw [parseToken_set_number x] at hp
    simp only [Except.map] at hp
    rw [transform_via_steps v _ (str_ne_empty _ _ _ hd) _ hp]
    rw [apply_transformations_cons TRANSFORMS v
      ⟨"set_number", [("value", Value.str x)]⟩ [] set_number rfl,
      set_number_eval, hx]
    rfl

/-- Witness for the amended C7 at concrete inputs. -/
theorem C7_set_constants_witness :
    transform (Value.str "z") ("set|" ++ "const") =
      Except.ok (Value.str "const") ∧
    transform (Value.str "z") ("set_number|" ++ "7") =
      Except.ok (Value.int 7) ∧
    transform (Value.str "z") ("set_number|" ++ "2.5") =
      Except.ok (Value.str "z") := by
  refine ⟨?_, ?_, ?_⟩
  · exact C7_set_constants_amended.1 (Value.str "z") "const" (by decide)
  · exact C7_set_constants_amended.2.1 (Value.str "z") "7" 7 (by decide) (by decide)
  · exact C7_set_constants_amended.2.2 (Value.str "z") "2.5" (by decide) (by decide)

/-! ## C6: split delimiter resolution -/

theorem length_pos_of_ne_empty (s : String) (h : s ≠ "") : 1 ≤ s.data.length := by
  cases s with
  | mk l =>
    cases l with
    | nil => exact absurd rfl h
    | cons c cs => simp

theorem parseToken_split (raw : String) :
    parseToken ("split|" ++ raw) =
      (parseSplitArg raw).map
        (fun d => (⟨"split", [("delimiter", Value.str d)]⟩ : Step)) := by
  have hpos : pyStartsWith ("split|" ++ raw) "split|" = true :=
    pyStartsWith_append_self _ _
  have hdrop : pyDrop ("split|" ++ raw) 6 = raw := pyDrop_append _ _ 6 rfl
  simp only [parseToken, hpos, if_true]
  rw [hdrop]
  cases parseSplitArg raw with
  | error e => rfl
  | ok d => rfl

/-- C6: delimiter resolution for `split|` tokens follows the priority
order of the source: the literal remainders `"||"` and `"\|"` give the
pipe delimiter; a `"|||"` prefix strips to what follows (pipe when
nothing follows); a `"||"` prefix with single-space tail gives the space
delimiter, otherwise the tail verbatim; an escaped-pipe prefix gives a
pipe plus the remainder; anything else is taken verbatim — each resolved
delimiter then being stripped of surrounding whitespace unless it is
exactly one space, with an empty result a parse error; and a
single-token `split|` rule parses to the resolved step or that error. -/
theorem C6_split_delimiter_resolution :
    (parseSplitArg "||" = Except.ok "|") ∧
    (parseSplitArg "\\|" = Except.ok "|") ∧
    (∀ rest : String,
        parseSplitArg ("|||" ++ rest) =
          finalizeDelim (if rest = "" then "|" else rest)) ∧
    (∀ t : String, t ≠ "" → pyStartsWith t "|" = false →
        parseSplitArg ("||" ++ t) = finalizeDelim (if t = " " then " " else t)) ∧
    (∀ rest : String, rest ≠ "" →
        parseSplitArg ("\\|" ++ rest) = finalizeDelim ("|" ++ rest)) ∧
    (∀ raw : String, pyStartsWith raw "||" = false →
        pyStartsWith raw "\\|" = false →
        parseSplitArg raw = finalizeDelim raw) ∧
    (finalizeDelim " " = Except.ok " ") ∧
    (∀ d : String, d ≠ " " → pyStripStr d = "" →
        finalizeDelim d = Except.error "split requires non-empty delimiter") ∧
    (∀ d : String, d ≠ " " → pyStripStr d ≠ "" →
        finalizeDelim d = Except.ok (pyStripStr d)) ∧
    (∀ raw : String,
        tokensOf ("split|" ++ raw) = ["split|" ++ raw] →
        parse_dsl_rule ("split|" ++ raw) =
          (parseSplitArg raw).map
            (fun d => [(⟨"split", [("delimiter", Value.str d)]⟩ : Step)])) := by
  refine ⟨rfl, rfl, ?_, ?_, ?_, ?_, rfl, ?_, ?_, ?_⟩
  · intro rest
    have e3 : ("|||" : String).data.length = 3 := rfl
    have e2 : ("||" : String).data.length = 2 := rfl
    have eb : ("\\|" : String).data.length = 2 := rfl
    have hne1 : ("|||" ++ rest) ≠ "||" := by
      apply strne_of_length; rw [data_append, List.length_append]; omega
    have hne2 : ("|||" ++ rest) ≠ "\\|" := by
      apply strne_of_length; rw [data_append, List.length_append]; omega
    have hpos : pyStartsWith ("|||" ++ rest) "|||" = true :=
      pyStartsWith_append_self _ _
    have hdrop : pyDrop ("|||" ++ rest) 3 = rest := pyDrop_append _ _ 3 rfl
    simp only [parseSplitArg]
    rw [if_neg (not_or.mpr ⟨hne1, hne2⟩), if_pos hpos, hdrop]
  · intro t ht hpipe
    have e2 : ("||" : String).data.length = 2 := rfl
    have htl := length_pos_of_ne_empty t ht
    have hne1 : ("||" ++ t) ≠ "||" := by
      apply strne_of_length; rw [data_append, List.length_append]; omega
    have hbs : pyStartsWith ("||" ++ t) "\\|" = false :=
      pyStartsWith_append_false _ _ _ (by decide) (by decide)
    have hne2 : ("||" ++ t) ≠ "\\|" := ne_of_pyStartsWith_false _ _ hbs
    have h3 : pyStartsWith ("||" ++ t) "|||" = false := by
      show (("|||" : String).data.isPrefixOf ("||" ++ t).data) = false
      rw [data_append]
      show (['|', '|', '|'].isPrefixOf ('|' :: '|' :: t.data)) = false
      simp only [List.isPrefixOf, beq_self_eq_true, Bool.true_and]
      exact hpipe
    have hpos : pyStartsWith ("||" ++ t) "||" = true :=
      pyStartsWith_append_self _ _
    have hdrop : pyDrop ("||" ++ t) 2 = t := pyDrop_append _ _ 2 rfl
    simp only [parseSplitArg]
    rw [if_neg (not_or.mpr ⟨hne1, hne2⟩), if_neg (by simp [h3]), if_pos hpos,
      hdrop]
    by_cases hsp : t = " "
    · rw [if_pos (Or.inr hsp), if_pos hsp]
    · rw [if_neg (fun hor => hor.elim ht hsp), if_neg hsp]
  · intro rest hrest
    have eb : ("\\|" : String).data.length = 2 := rfl
    have hrl := length_pos_of_ne_empty rest hrest
    have h2 : pyStartsWith ("\\|" ++ rest) "||" = false :=
      pyStartsWith_append_false _ _ _ (by decide) (by decide)
    have hne1 : ("\\|" ++ rest) ≠ "||" := ne_of_pyStartsWith_false _ _ h2
    have hne2 : ("\\|" ++ rest) ≠ "\\|" := by
      apply strne_of_length; rw [data_append, List.length_append]; omega
    have h3 : pyStartsWith ("\\|" ++ rest) "|||" = false :=
      pyStartsWith_append_false _ _ _ (by decide) (by decide)
    have hpos : pyStartsWith ("\\|" ++ rest) "\\|" = true :=
      pyStartsWith_append_self _ _
    have hdrop : pyDrop ("\\|" ++ rest) 2 = rest := pyDrop_append _ _ 2 rfl
    simp only [parseSplitArg]
    rw [if_neg (not_or.mpr ⟨hne1, hne2⟩), if_neg (by simp [h3]),
      if_neg (by simp [h2]), if_pos hpos, hdrop]
  · intro raw h2f hbs
    have hne1 : raw ≠ "||" := ne_of_pyStartsWith_false _ _ h2f
    have hne2 : raw ≠ "\\|" := ne_of_pyStartsWith_false _ _ hbs
    have h3 : pyStartsWith raw "|||" = false := by
      cases hh : pyStartsWith raw "|||" with
      | false => rfl
      | true =>
        have hm := pyStartsWith_mono raw "||" "|||" (by decide) hh
        rw [hm] at h2f
        cases h2f
    simp only [parseSplitArg]
    rw [if_neg (not_or.mpr ⟨hne1, hne2⟩), if_neg (by simp [h3]),
      if_neg (by simp [h2f]), if_neg (by simp [hbs])]
  · intro d hd hstrip
    simp only [finalizeDelim]
    rw [if_neg hd, if_pos hstrip]
  · intro d hd hstrip
    simp only [finalizeDelim]
    rw [if_neg hd, if_neg hstrip]
  · intro raw htok
    have hd : ("split|" ++ raw).data =
        's' :: ('p' :: 'l' :: 'i' :: 't' :: '|' :: raw.data) := by
      rw [data_append]; rfl
    have hp := parse_single_token ("split|" ++ raw) htok 's' _ hd (by decide)
    rw [parseToken_split raw] at hp
    rw [hp]
    cases parseSplitArg raw with
    | error e => rfl
    | ok d => rfl

/-- Witness for C6 at concrete inputs. -/
theorem C6_split_witness :
    parse_dsl_rule ("split|" ++ ",") =
      Except.ok [(⟨"split", [("delimiter", Value.str ",")]⟩ : Step)] ∧
    parseSplitArg ("|||" ++ "x") = Except.ok "x" ∧
    parseSplitArg ("||" ++ " ") = Except.ok " " ∧
    parseSplitArg ("\\|" ++ "x") = Except.ok "|x" ∧
    parseSplitArg "  ,  " = Except.ok "," := by
  refine ⟨?_, ?_, ?_, ?_, ?_⟩
  · have h := C6_split_delimiter_resolution.2.2.2.2.2.2.2.2.2 ","
      (by decide)
    rw [h]; rfl
  · rw [C6_split_delimiter_resolution.2.2.1 "x"]; rfl
  · rw [C6_split_delimiter_resolution.2.2.2.1 " " (by decide) (by decide)]; rfl
  · rw [C6_split_delimiter_resolution.2.2.2.2.1 "x" (by decide)]; rfl
  · rw [C6_split_delimiter_resolution.2.2.2.2.2.1 "  ,  " (by decide) (by decide)]
    rfl

/-! ## C8: vlookup parsing and execution -/

/-- Evaluation of `vlookup_map` on a string input and a non-empty mapping. -/
theorem vlookup_map_eval (s : String) (p : String × Value)
    (ms : List (String × Value)) :
    vlookup_map (Value.str s) [("mapping", Value.dict (p :: ms))] =
      StepOutcome.ok ((dictGet (p :: ms) (pyLowerStr s)).getD (Value.str s)) :=
  rfl

/-- C8: a `vlookup|` token trims trailing pipes, splits pairs on commas and
on the first colon, lowercases and trims keys, trims and coerces values
(`true`/`false` to booleans, decimal-shaped tokens to floats, all-digit
tokens to integers, the rest kept as strings); at execution time a string
input is looked up case-insensitively and an unmatched input is returned
unchanged — in particular `vlookup|a:1,b:2.5,c:true` maps `a` to the
integer 1, `b` to the float 2.5 and `c` to the boolean True. -/
theorem C8_vlookup :
    (parse_dsl_rule "vlookup|a:1,b:2.5,c:true" =
      Except.ok [(⟨"vlookup_map",
        [("mapping", Value.dict
          [("a", Value.int 1), ("b", Value.float (mkRat 5 2)),
           ("c", Value.bool true)])]⟩ : Step)]) ∧
    (parse_dsl_rule "vlookup|a:1,b:2.5,c:true|" =
      parse_dsl_rule "vlookup|a:1,b:2.5,c:true") ∧
    (transform (Value.str "A") "vlookup|a:1,b:2.5,c:true" =
      Except.ok (Value.int 1)) ∧
    (transform (Value.str "z") "vlookup|a:1,b:2.5,c:true" =
      Except.ok (Value.str "z")) ∧
    (∀ (s : String) (m : List (String × Value)) (w : Value),
        dictGet m (pyLowerStr s) = Option.some w →
        vlookup_map (Value.str s) [("mapping", Value.dict m)] =
          StepOutcome.ok w) ∧
    (∀ (s : String) (m : List (String × Value)),
        dictGet m (pyLowerStr s) = Option.none →
        vlookup_map (Value.str s) [("mapping", Value.dict m)] =
          StepOutcome.ok (Value.str s)) ∧
    (∀ s : String,
        coerceVlookupValue s =
          if pyLowerStr s = "true" then Value.bool true
          else if pyLowerStr s = "false" then Value.bool false
          else
            match decimalFloatShape s with
            | Option.some q => Value.float q
            | Option.none =>
                if pyIsDigit s then Value.int (digitsVal s.data)
                else Value.str s) := by
  refine ⟨rfl, rfl, rfl, rfl, ?_, ?_, fun s => rfl⟩
  · intro s m w h
    cases m with
    | nil => simp [dictGet, List.find?] at h
    | cons p ms => rw [vlookup_map_eval, h]; rfl
  · intro s m h
    cases m with
    | nil => rfl
    | cons p ms => rw [vlookup_map_eval, h]; rfl

/-- Witness for C8 at concrete inputs (matched and unmatched lookups). -/
theorem C8_vlookup_witness :
    vlookup_map (Value.str "B") [("mapping", Value.dict [("b", Value.int 2)])] =
      StepOutcome.ok (Value.int 2) ∧
    vlookup_map (Value.str "z") [("mapping", Value.dict [("b", Value.int 2)])] =
      StepOutcome.ok (Value.str "z") := by
  constructor
  · exact C8_vlookup.2.2.2.2.1 "B" [("b", Value.int 2)] (Value.int 2) rfl
  · exact C8_vlookup.2.2.2.2.2.1 "z" [("b", Value.int 2)] rfl

/-! ## C5: batch production and count aggregation -/

theorem produceBatchesLoop_length {Row : Type} (k : Nat) (hk : 1 ≤ k) :
    ∀ (rows : List Row) (bid : Nat) (cur : List Row), cur.length < k →
      (produceBatchesLoop k rows bid cur).length =
        (cur.length + rows.length + k - 1) / k := by
  intro rows
  induction rows with
  | nil =>
    intro bid cur hcur
    cases cur with
    | nil =>
      simp only [produceBatchesLoop, List.isEmpty_nil, if_true,
        List.length_nil]
      exact (Nat.div_eq_of_lt (by omega)).symm
    | cons c cs =>
      have hlen : (c :: cs).length = cs.length + 1 := rfl
      simp only [produceBatchesLoop]
      rw [if_neg (by simp)]
      have hone : ([(bid, c :: cs)] : List (Nat × List Row)).length = 1 := rfl
      have h0 : ([] : List Row).length = 0 := rfl
      rw [hone]
      symm
      rw [Nat.div_eq_of_lt_le] <;> omega
  | cons r rest ih =>
    intro bid cur hcur
    have h1 : (cur ++ [r]).length = cur.length + 1 := by simp
    have h2 : (r :: rest).length = rest.length + 1 := rfl
    by_cases hge : (cur ++ [r]).length ≥ k
    · simp only [produceBatchesLoop]
      rw [if_pos hge, List.length_cons,
        ih (bid + 1) [] (by simp only [List.length_nil]; omega)]
      have harg1 : ([] : List Row).length + rest.length + k - 1 =
          rest.length + k - 1 := by simp
      rw [harg1]
      have harg2 : cur.length + (r :: rest).length + k - 1 =
          rest.length + k - 1 + k := by omega
      rw [harg2, Nat.add_div_right _ (by omega)]
    · simp only [produceBatchesLoop]
      rw [if_neg hge, ih bid (cur ++ [r]) (by omega)]
      congr 1
      omega

theorem produceBatchesLoop_ids {Row : Type} (k : Nat) :
    ∀ (rows : List Row) (bid : Nat) (cur : List Row),
      (produceBatchesLoop k rows bid cur).map Prod.fst =
        List.range' bid (produceBatchesLoop k rows bid cur).length := by
  intro rows
  induction rows with
  | nil =>
    intro bid cur
    cases cur with
    | nil => simp [produceBatchesLoop]
    | cons c cs => simp [produceBatchesLoop, List.range']
  | cons r rest ih =>
    intro bid cur
    by_cases hge : (cur ++ [r]).length ≥ k
    · simp only [produceBatchesLoop]
      rw [if_pos hge]
      simp only [List.map_cons, List.length_cons]
      rw [ih (bid + 1) [], List.range'_succ]
    · simp only [produceBatchesLoop]
      rw [if_neg hge]
      exact ih bid (cur ++ [r])

theorem produceBatchesLoop_sizes {Row : Type} (k : Nat) :
    ∀ (rows : List Row) (bid : Nat) (cur : List Row),
      ∀ b ∈ produceBatchesLoop k rows bid cur, 1 ≤ b.2.length := by
  intro rows
  induction rows with
  | nil =>
    intro bid cur b hb
    cases cur with
    | nil => simp [produceBatchesLoop] at hb
    | cons c cs =>
      simp only [produceBatchesLoop] at hb
      rw [if_neg (by simp)] at hb
      rw [List.mem_singleton] at hb
      subst hb
      simp
  | cons r rest ih =>
    intro bid cur b hb
    by_cases hge : (cur ++ [r]).length ≥ k
    · simp only [produceBatchesLoop] at hb
      rw [if_pos hge] at hb
      rcases List.mem_cons.mp hb with heq | hmem
      · subst heq; simp
      · exact ih (bid + 1) [] b hmem
    · simp only [produceBatchesLoop] at hb
      rw [if_neg hge] at hb
      exact ih bid (cur ++ [r]) b hb

theorem produceBatchesLoop_sum {Row : Type} (k : Nat) :
    ∀ (rows : List Row) (bid : Nat) (cur : List Row),
      ((produceBatchesLoop k rows bid cur).map (fun b => b.2.length)).sum =
        cur.length + rows.length := by
  intro rows
  induction rows with
  | nil =>
    intro bid cur
    cases cur with
    | nil => simp [produceBatchesLoop]
    | cons c cs => simp [produceBatchesLoop]
  | cons r rest ih =>
    intro bid cur
    have h1 : (cur ++ [r]).length = cur.length + 1 := by simp
    have h2 : (r :: rest).length = rest.length + 1 := rfl
    by_cases hge : (cur ++ [r]).length ≥ k
    · simp only [produceBatchesLoop]
      rw [if_pos hge]
      simp only [List.map_cons, List.sum_cons]
      rw [ih (bid + 1) []]
      have h3 : ([] : List Row).length = 0 := rfl
      omega
    · simp only [produceBatchesLoop]
      rw [if_neg hge, ih bid (cur ++ [r])]
      omega

/-- Every batch attempt sequence yields a result whose success and error
counts total the batch size, provided any returned dict's counts do. -/
theorem retryGo_total (cfg : BatchConfig) (bid size : Nat)
    (proc : Nat → ProcOutcome)
    (hp : ∀ n d, proc n = ProcOutcome.ok (Option.some d) →
        d.success_count.getD size + d.error_count.getD 0 = size) :
    ∀ (remaining made : Nat) (last : Option String),
      (retryGo cfg bid size proc remaining made last).1.success_count +
        (retryGo cfg bid size proc remaining made last).1.error_count = size := by
  intro remaining
  induction remaining with
  | zero =>
    intro made last
    have heq : retryGo cfg bid size proc 0 made last =
        (failedBatchResult cfg bid size last, made) := by
      rw [retryGo]
    rw [heq]
    simp [failedBatchResult]
  | succ rem ih =>
    intro made last
    cases hpo : proc (made + 1) with
    | ok r =>
      cases r with
      | none =>
        have heq : retryGo cfg bid size proc (rem + 1) made last =
            (parseProcResult bid size Option.none, made + 1) := by
          rw [retryGo, hpo]
        rw [heq]
        rfl
      | some d =>
        have heq : retryGo cfg bid size proc (rem + 1) made last =
            (parseProcResult bid size (Option.some d), made + 1) := by
          rw [retryGo, hpo]
        rw [heq]
        exact hp (made + 1) d hpo
    | timeout =>
      have heq : retryGo cfg bid size proc (rem + 1) made last =
          retryGo cfg bid size proc rem (made + 1)
            (Option.some (timeoutMsg cfg bid)) := by
        rw [retryGo, hpo]
      rw [heq]
      exact ih (made + 1) _
    | error e =>
      have heq : retryGo cfg bid size proc (rem + 1) made last =
          retryGo cfg bid size proc rem (made + 1) (Option.some e) := by
        rw [retryGo, hpo]
      rw [heq]
      exact ih (made + 1) _

theorem sum_map_eq_of_forall {α : Type} (l : List α) (f g : α → Nat)
    (h : ∀ a ∈ l, f a = g a) : (l.map f).sum = (l.map g).sum := by
  induction l with
  | nil => rfl
  | cons a as ih =>
    simp only [List.map_cons, List.sum_cons]
    rw [h a (by simp), ih (fun b hb => h b (by simp [hb]))]

/-- C5: for N ≥ 1 rows and batch size k ≥ 1, the producer creates exactly
`ceil(N/k)` batches with ids 0, 1, 2, … in order, every batch non-empty
(the final one possibly undersized); and when the processing function's
returned counts always total the batch size (a non-dict result counting
as a full success), the success plus error counts over all `BatchResult`s
sum to N — including batches that exhaust their retries, which contribute
`0 + batch size`. -/
theorem C5_batching {Row : Type} (cfg : BatchConfig) (rows : List Row)
    (procOf : Nat → Nat → ProcOutcome)
    (hk : 1 ≤ cfg.batch_size) (hN : 1 ≤ rows.length)
    (hproc : ∀ b ∈ produce_batches cfg.batch_size rows, ∀ n d,
        procOf b.1 n = ProcOutcome.ok (Option.some d) →
        d.success_count.getD b.2.length + d.error_count.getD 0 = b.2.length) :
    (produce_batches cfg.batch_size rows).length =
      (rows.length + cfg.batch_size - 1) / cfg.batch_size ∧
    (produce_batches cfg.batch_size rows).map Prod.fst =
      List.range (produce_batches cfg.batch_size rows).length ∧
    (∀ b ∈ produce_batches cfg.batch_size rows, 1 ≤ b.2.length) ∧
    ((produce_batches cfg.batch_size rows).map
        (fun b =>
          (process_batch_with_retry cfg b.1 b.2 (procOf b.1)).1.success_count +
          (process_batch_with_retry cfg b.1 b.2 (procOf b.1)).1.error_count)).sum =
      rows.length := by
  refine ⟨?_, ?_, ?_, ?_⟩
  · have h := produceBatchesLoop_length cfg.batch_size hk rows 0 []
      (by simp only [List.length_nil]; omega)
    rw [produce_batches, h]
    congr 1
    have h0 : ([] : List Row).length = 0 := rfl
    omega
  · rw [produce_batches, produceBatchesLoop_ids cfg.batch_size rows 0 [],
      List.range_eq_range']
  · intro b hb
    exact produceBatchesLoop_sizes cfg.batch_size rows 0 [] b hb
  · have hcong := sum_map_eq_of_forall (produce_batches cfg.batch_size rows)
      (fun b =>
        (process_batch_with_retry cfg b.1 b.2 (procOf b.1)).1.success_count +
        (process_batch_with_retry cfg b.1 b.2 (procOf b.1)).1.error_count)
      (fun b => b.2.length)
      (fun b hb =>
        retryGo_total cfg b.1 b.2.length (procOf b.1) (hproc b hb)
          cfg.retry_attempts 0 Option.none)
    rw [hcong, produce_batches, produceBatchesLoop_sum cfg.batch_size rows 0 []]
    simp

/-- Witness for C5: three rows, batch size two, a full-success processor. -/
theorem C5_batching_witness :
    (produce_batches 2 ([(), (), ()] : List Unit)).length = (3 + 2 - 1) / 2 ∧
    (produce_batches 2 ([(), (), ()] : List Unit)).map Prod.fst =
      List.range (produce_batches 2 ([(), (), ()] : List Unit)).length ∧
    (∀ b ∈ produce_batches 2 ([(), (), ()] : List Unit), 1 ≤ b.2.length) ∧
    ((produce_batches 2 ([(), (), ()] : List Unit)).map
        (fun b =>
          (process_batch_with_retry (BatchConfig.mk 2 4 10 300 3 true) b.1 b.2
            ((fun _ _ => ProcOutcome.ok Option.none) b.1)).1.success_count +
          (process_batch_with_retry (BatchConfig.mk 2 4 10 300 3 true) b.1 b.2
            ((fun _ _ => ProcOutcome.ok Option.none) b.1)).1.error_count)).sum =
      3 :=
  C5_batching (BatchConfig.mk 2 4 10 300 3 true) ([(), (), ()] : List Unit)
    (fun _ _ => ProcOutcome.ok Option.none) (by decide) (by decide)
    (fun b hb n d hd => Option.noConfusion (ProcOutcome.ok.inj hd))

end EdgeSDK
